import Mathlib

/-!
Verification of the mscclpp Communicator / Executor control plane
(src/src/communicator.cc) against its specification.

The C++ source is shallowly embedded: machine integers become `Nat`,
pointers become `Nat` addresses, `std::vector`/`std::unordered_map` become
lists / association lists, virtual `Setuppable` dispatch becomes a closed
inductive type (the source's three implementers: memory sender, memory
receiver, connection), and exceptions become `Except`.  Functions with
observable communication side effects additionally return an event trace.
-/

namespace Mscclpp

/-- The `Transport` enum: the intra-node kind, the eight RDMA (InfiniBand)
kinds `IB0`..`IB7`, and `Unknown` for any other enum value. -/
inductive Transport where
  | Unknown
  | CudaIpc
  | IB0
  | IB1
  | IB2
  | IB3
  | IB4
  | IB5
  | IB6
  | IB7
  deriving DecidableEq, Repr

/-- Numeric code of a transport, used by the serialized form of
transport-flag sets. -/
def Transport.code : Transport → Nat
  | .Unknown => 0
  | .CudaIpc => 1
  | .IB0 => 2
  | .IB1 => 3
  | .IB2 => 4
  | .IB3 => 5
  | .IB4 => 6
  | .IB5 => 7
  | .IB6 => 8
  | .IB7 => 9

/-- Partial inverse of `Transport.code`. -/
def Transport.fromCode : Nat → Option Transport
  | 0 => some .Unknown
  | 1 => some .CudaIpc
  | 2 => some .IB0
  | 3 => some .IB1
  | 4 => some .IB2
  | 5 => some .IB3
  | 6 => some .IB4
  | 7 => some .IB5
  | 8 => some .IB6
  | 9 => some .IB7
  | _ => none

/-- `AllIBTransports.has t`: is `t` one of the RDMA transports
(source: the `AllIBTransports` flag set). -/
def AllIBTransports.has : Transport → Bool
  | .IB0 => true
  | .IB1 => true
  | .IB2 => true
  | .IB3 => true
  | .IB4 => true
  | .IB5 => true
  | .IB6 => true
  | .IB7 => true
  | _ => false

/-- The `IBs` array of the executor source: the RDMA transport chosen for a
remote peer is `IBs[rank % nranksPerNode]`. -/
def IBs : List Transport :=
  [.IB0, .IB1, .IB2, .IB3, .IB4, .IB5, .IB6, .IB7]

/-- `ErrorCode`: the error kinds raised by this core. -/
inductive ErrorCode where
  | InvalidUsage
  | InternalError
  | ExecutorError
  deriving DecidableEq, Repr

/-- `mscclpp::Error`: a message plus an `ErrorCode`. -/
structure MscclppError where
  message : String
  errorCode : ErrorCode
  deriving DecidableEq, Repr

/-- Transport-flag sets (`TransportFlags`), modelled as a duplicate-free
list; `flagsAdd` is the `|=` insertion. -/
def flagsAdd (fs : List Transport) (t : Transport) : List Transport :=
  if t ∈ fs then fs else fs ++ [t]

/-- `RegisteredMemory`: owning rank, base pointer, size and the transports
the region is reachable through (spec section 3). -/
structure RegisteredMemory where
  ptr : Nat
  size : Nat
  rank : Nat
  transports : List Transport
  deriving DecidableEq, Repr

/-- Modelled from the spec: `RegisteredMemory::serialize` lives in
registered_memory.cc, which is not part of the staged sources; the spec
says the descriptor is "serializable to/from a byte sequence" carrying
(owning rank, base pointer, size, transport-flags).  The byte sequence is
modelled as a list of numbers: the three scalar fields followed by the
transport codes. -/
def RegisteredMemory.serialize (m : RegisteredMemory) : List Nat :=
  m.rank :: m.size :: m.ptr :: m.transports.map Transport.code

/-- Modelled from the spec: `RegisteredMemory::deserialize`, the inverse of
`RegisteredMemory.serialize` (registered_memory.cc is not part of the
staged sources).  A malformed byte sequence yields `none`. -/
def RegisteredMemory.deserialize (data : List Nat) : Option RegisteredMemory :=
  match data with
  | rank :: size :: ptr :: rest =>
      some { ptr := ptr, size := size, rank := rank,
             transports := rest.filterMap Transport.fromCode }
  | _ => none

/-- `Connection`: the two variants produced by `Communicator::connectOnSetup`
(CudaIpcConnection and IBConnection). -/
inductive Connection where
  | cudaIpc (remoteRank : Nat) (tag : Nat)
  | ib (remoteRank : Nat) (tag : Nat) (transport : Transport)
  deriving DecidableEq, Repr

/-- The closed set of `Setuppable` implementers of the source: `MemorySender`,
`MemoryReceiver` and connections (spec section 9 design note). -/
inductive Setuppable where
  | memorySender (memory : RegisteredMemory) (remoteRank : Nat) (tag : Nat)
  | memoryReceiver (remoteRank : Nat) (tag : Nat)
  | connection (conn : Connection)
  deriving DecidableEq, Repr

/-- An invocation of one of the two `Setuppable` lifecycle hooks. -/
inductive HookEvent where
  | beginHook (s : Setuppable)
  | endHook (s : Setuppable)
  deriving DecidableEq, Repr

/-- A bootstrap-channel action performed inside a lifecycle hook. -/
inductive BootEvent where
  | send (data : List Nat) (dst : Nat) (tag : Nat)
  | recvResolve (src : Nat) (tag : Nat)
  | connHandshakeBegin (c : Connection)
  | connHandshakeEnd (c : Connection)
  deriving DecidableEq, Repr

/-- Bootstrap actions of a `beginSetup` hook: `MemorySender::beginSetup`
serializes its descriptor and sends it; a receiver does nothing; a
connection starts its own (opaque) handshake. -/
def Setuppable.beginHookEvents : Setuppable → List BootEvent
  | .memorySender m remoteRank tag => [.send m.serialize remoteRank tag]
  | .memoryReceiver _ _ => []
  | .connection c => [.connHandshakeBegin c]

/-- Bootstrap actions of an `endSetup` hook: `MemoryReceiver::endSetup`
receives, deserializes and fulfills its promise; a sender does nothing; a
connection finishes its handshake. -/
def Setuppable.endHookEvents : Setuppable → List BootEvent
  | .memorySender _ _ _ => []
  | .memoryReceiver remoteRank tag => [.recvResolve remoteRank tag]
  | .connection c => [.connHandshakeEnd c]

/-- Bootstrap actions of one hook invocation. -/
def HookEvent.bootEvents : HookEvent → List BootEvent
  | .beginHook s => s.beginHookEvents
  | .endHook s => s.endHookEvents

def HookEvent.isBeginHook : HookEvent → Bool
  | .beginHook _ => true
  | .endHook _ => false

def HookEvent.isEndHook : HookEvent → Bool
  | .beginHook _ => false
  | .endHook _ => true

def BootEvent.isSend : BootEvent → Bool
  | .send _ _ _ => true
  | _ => false

def BootEvent.isRecvResolve : BootEvent → Bool
  | .recvResolve _ _ => true
  | _ => false

/-- Does this hook invocation issue a memory-descriptor send? -/
def HookEvent.emitsSend (h : HookEvent) : Bool :=
  h.bootEvents.any BootEvent.isSend

/-- Does this hook invocation resolve a memory-descriptor receive-future? -/
def HookEvent.emitsRecvResolve (h : HookEvent) : Bool :=
  h.bootEvents.any BootEvent.isRecvResolve

/-- Every element of `H` satisfying `p` comes strictly before every element
satisfying `q`. -/
def eventsOrdered (p q : HookEvent → Bool) (H : List HookEvent) : Prop :=
  ∀ i j (hi : i < H.length) (hj : j < H.length),
    p (H.get ⟨i, hi⟩) = true → q (H.get ⟨j, hj⟩) = true → i < j

/-- `Communicator::Impl` state: this rank, the all-gathered host-hash table,
the connection list, the queue of pending `Setuppable` objects, and the
lazily created network-interface (IB) contexts keyed by transport. -/
structure CommState where
  rank : Nat
  rankToHash : List Nat
  connections : List Connection
  toSetup : List Setuppable
  ibContexts : List Transport
  deriving DecidableEq, Repr

/-- `Communicator::onSetup`: enqueue a `Setuppable`. -/
def Communicator.onSetup (st : CommState) (setuppable : Setuppable) : CommState :=
  { st with toSetup := st.toSetup ++ [setuppable] }

/-- `Communicator::Impl::getIbContext`: look up the IB context for a
transport, creating and caching it on first use. -/
def Communicator.getIbContext (st : CommState) (ibTransport : Transport) : CommState :=
  if ibTransport ∈ st.ibContexts then st
  else { st with ibContexts := st.ibContexts ++ [ibTransport] }

/-- `Communicator::registerMemory`: wrap a region into a descriptor owned by
this rank.  Purely local. -/
def Communicator.registerMemory (st : CommState) (ptr size : Nat)
    (transports : List Transport) : RegisteredMemory :=
  { ptr := ptr, size := size, rank := st.rank, transports := transports }

/-- `Communicator::sendMemoryOnSetup`: enqueue a `MemorySender`. -/
def Communicator.sendMemoryOnSetup (st : CommState) (memory : RegisteredMemory)
    (remoteRank tag : Nat) : CommState :=
  Communicator.onSetup st (.memorySender memory remoteRank tag)

/-- `Communicator::recvMemoryOnSetup`: enqueue a `MemoryReceiver` (the
returned future resolves during that receiver's `endSetup`). -/
def Communicator.recvMemoryOnSetup (st : CommState) (remoteRank tag : Nat) : CommState :=
  Communicator.onSetup st (.memoryReceiver remoteRank tag)

/-- Error message of the cross-host CudaIpc check (the source also appends
the two ranks and host hashes to the message). -/
def cudaIpcCrossNodeMessage : String :=
  "Cuda IPC connection can only be made within a node"

/-- `Communicator::connectOnSetup`: CudaIpc requires equal host hashes
(else invalid-usage); an IB transport builds an IBConnection against the
lazily created IB context; anything else is an internal error.  A new
connection is appended to the connection list and enqueued as a
`Setuppable`.  On error the state is returned as it was at the throw. -/
def Communicator.connectOnSetup (st : CommState) (remoteRank tag : Nat)
    (transport : Transport) : Except MscclppError Connection × CommState :=
  if transport = Transport.CudaIpc then
    if st.rankToHash.getD remoteRank 0 ≠ st.rankToHash.getD st.rank 0 then
      (.error ⟨cudaIpcCrossNodeMessage, ErrorCode.InvalidUsage⟩, st)
    else
      let conn := Connection.cudaIpc remoteRank tag
      (.ok conn,
        { st with
          connections := st.connections ++ [conn]
          toSetup := st.toSetup ++ [Setuppable.connection conn] })
  else if AllIBTransports.has transport then
    let st1 := Communicator.getIbContext st transport
    let conn := Connection.ib remoteRank tag transport
    (.ok conn,
      { st1 with
        connections := st1.connections ++ [conn]
        toSetup := st1.toSetup ++ [Setuppable.connection conn] })
  else
    (.error ⟨"Unsupported transport", ErrorCode.InternalError⟩, st)

/-- First loop of `Communicator::setup`: call `beginSetup` on every queued
object, in order. -/
def runBeginPhase : List Setuppable → List HookEvent
  | [] => []
  | s :: rest => HookEvent.beginHook s :: runBeginPhase rest

/-- Second loop of `Communicator::setup`: call `endSetup` on every queued
object, in order. -/
def runEndPhase : List Setuppable → List HookEvent
  | [] => []
  | s :: rest => HookEvent.endHook s :: runEndPhase rest

/-- `Communicator::setup`: run the begin phase over the whole queue, then
the end phase over the whole queue, then clear the queue.  Returns the new
state and the ordered trace of hook invocations. -/
def Communicator.setup (st : CommState) : CommState × List HookEvent :=
  ({ st with toSetup := [] },
   runBeginPhase st.toSetup ++ runEndPhase st.toSetup)

/-! ## Executor side (second half of the source file) -/

/-- `BufferType`: the three buffer roles an execution plan can reference. -/
inductive BufferType where
  | INPUT
  | OUTPUT
  | SCRATCH
  deriving DecidableEq, Repr

/-- `ChannelType`: the two channel kinds the executor builds. -/
inductive ChannelType where
  | SM
  | PROXY
  deriving DecidableEq, Repr

/-- `ChannelInfo` as consumed by the executor: channel kind, list of
connected peers and the source/destination buffer roles. -/
structure ChannelInfo where
  channelType : ChannelType
  connectedPeers : List Nat
  srcBufferType : BufferType
  dstBufferType : BufferType
  deriving DecidableEq, Repr

/-- One operation of a per-threadblock operation list (its payload is opaque
to this core; the executor only copies it). -/
structure Operation where
  payload : Nat
  deriving DecidableEq, Repr

/-- The message sizes and constant offsets a plan is (re)loaded with
(`loadExecutionPlan` / `lightLoadExecutionPlan` parameters). -/
structure LoadParams where
  inputMessageSize : Nat
  outputMessageSize : Nat
  constSrcOffset : Nat
  constDstOffset : Nat
  deriving DecidableEq, Repr

/-- The execution-plan collaborator (`plan.impl_`): the per-rank queries the
executor consumes.  The plan-reload operations (`reset` +
`loadExecutionPlan`, `operationsReset` + `lightLoadExecutionPlan`) are
modelled by passing the loaded `LoadParams` to the queries that depend on
them (operations and per-threadblock channel maps). -/
structure ExecutionPlan where
  name : String
  getConnectedPeers : Nat → List Nat
  getConnectedBufferTypes : Nat → List BufferType
  getChannelInfosByDstRank : Nat → BufferType → List ChannelInfo
  getChannelInfos : Nat → BufferType → List ChannelInfo
  getChannelInfosByChannelType : Nat → ChannelType → List ChannelInfo
  getUnpairedChannelInfos : Nat → Nat → ChannelType → List ChannelInfo
  getScratchBufferSize : Nat → Nat → Nat → Nat
  getNThreadsPerBlock : Nat
  getThreadblockCount : Nat → Nat
  getOperations : LoadParams → Nat → Nat → List Operation
  threadblockSMChannelMap : LoadParams → Nat → Nat → List (Nat × Nat)
  threadblockProxyChannelMap : LoadParams → Nat → Nat → List (Nat × Nat)

/-- A device-to-device (SM) channel: its semaphore's connection, the remote
registered memory it targets and the local source pointer. -/
structure SmChannel where
  semaphoreConnection : Connection
  remoteMemory : RegisteredMemory
  src : Nat
  deriving DecidableEq, Repr

/-- A `SimpleProxyChannel`: proxy-service ids of its semaphore, remote
memory and local memory. -/
structure SimpleProxyChannel where
  semaphoreId : Nat
  remoteMemoryId : Nat
  localMemoryId : Nat
  deriving DecidableEq, Repr

/-- The proxy-service collaborator: its registered semaphores (stored as
the connection each was built over), its registered memories, and whether
`startProxy` has run. -/
structure ProxyService where
  semaphores : List Connection
  memories : List RegisteredMemory
  started : Bool
  deriving DecidableEq, Repr

/-- `ProxyService::buildAndAddSemaphore`: append, return the new id. -/
def ProxyService.buildAndAddSemaphore (ps : ProxyService) (conn : Connection) :
    Nat × ProxyService :=
  (ps.semaphores.length, { ps with semaphores := ps.semaphores ++ [conn] })

/-- `ProxyService::addMemory`: append, return the new id. -/
def ProxyService.addMemory (ps : ProxyService) (m : RegisteredMemory) :
    Nat × ProxyService :=
  (ps.memories.length, { ps with memories := ps.memories ++ [m] })

/-- `ProxyService::proxyChannel`: the channel handle for a semaphore id. -/
def ProxyService.proxyChannel (semaphoreId : Nat) : Nat := semaphoreId

/-- `DeviceExecutionPlan`: one threadblock's flat record — operation count,
channel counts, channel-handle arrays, operation list. -/
structure DeviceExecutionPlan where
  nOperations : Nat
  nSmChannels : Nat
  nProxyChannels : Nat
  smChannels : List SmChannel
  proxyChannels : List SimpleProxyChannel
  operations : List Operation
  deriving DecidableEq, Repr

/-- `ExecutionContext`: the materialized runtime state for one
(buffer-identity, plan) pairing. -/
structure ExecutionContext where
  proxyService : ProxyService
  connections : List (Nat × Connection)
  registeredMemories : List ((BufferType × Nat) × RegisteredMemory)
  smSemaphores : List Connection
  proxySemaphores : List Nat
  smChannels : List SmChannel
  proxyChannels : List SimpleProxyChannel
  deviceExecutionPlans : List DeviceExecutionPlan
  scratchBuffer : Nat
  scratchBufferSize : Nat
  deviceExecutionPlansBuffer : List DeviceExecutionPlan
  nthreadsPerBlock : Nat
  deriving DecidableEq, Repr

/-- `ExecutionContextKey`: the five-field structural identity of a context. -/
structure ExecutionContextKey where
  sendBuff : Nat
  recvBuff : Nat
  sendBuffSize : Nat
  recvBuffSize : Nat
  plan : String
  deriving DecidableEq, Repr

/-- `ExecutionContextKey::operator==`: field-wise comparison of all five
fields. -/
def ExecutionContextKey.beq (a b : ExecutionContextKey) : Bool :=
  a.sendBuff == b.sendBuff && a.recvBuff == b.recvBuff &&
  a.sendBuffSize == b.sendBuffSize && a.recvBuffSize == b.recvBuffSize &&
  a.plan == b.plan

/-- The key `Executor::Impl::setupExecutionContext` builds from its
arguments (source line 224): base pointers, buffer capacities and plan
name — the per-call message sizes and offsets do not enter it. -/
def execContextKeyOf (sendbuff recvbuff sendBufferSize recvBufferSize : Nat)
    (plan : ExecutionPlan) : ExecutionContextKey :=
  { sendBuff := sendbuff, recvBuff := recvbuff, sendBuffSize := sendBufferSize,
    recvBuffSize := recvBufferSize, plan := plan.name }

/-- `Executor::Impl` state: rank counts, the communicator and the context
cache. -/
structure ExecutorState where
  nranksPerNode : Nat
  nranks : Nat
  comm : CommState
  contexts : List (ExecutionContextKey × ExecutionContext)
  deriving DecidableEq, Repr

/-- Cache lookup with the key's `operator==`. -/
def Executor.findContext (contexts : List (ExecutionContextKey × ExecutionContext))
    (key : ExecutionContextKey) : Option ExecutionContext :=
  match contexts with
  | [] => none
  | kv :: rest =>
      if ExecutionContextKey.beq kv.1 key then some kv.2
      else Executor.findContext rest key

/-- In-place update of the cache entry under `key` (the warm path mutates
`this->contexts[key]`). -/
def Executor.replaceContext (contexts : List (ExecutionContextKey × ExecutionContext))
    (key : ExecutionContextKey) (ctx : ExecutionContext) :
    List (ExecutionContextKey × ExecutionContext) :=
  match contexts with
  | [] => []
  | kv :: rest =>
      if ExecutionContextKey.beq kv.1 key then (kv.1, ctx) :: rest
      else kv :: Executor.replaceContext rest key ctx

/-- Errors the executor paths can raise: an `mscclpp::Error`, or the
`std::out_of_range` thrown by `connections.at(peer)`. -/
inductive ExecException where
  | api (e : MscclppError)
  | outOfRange
  deriving DecidableEq, Repr

/-- The `inSameNode` locality test of the executor source: two ranks are on
the same node when they fall in the same block of `nranksPerNode`
consecutive ranks. -/
def inSameNode (rank1 rank2 nranksPerNode : Nat) : Bool :=
  rank1 / nranksPerNode == rank2 / nranksPerNode

/-- The transport `Executor::Impl::setupConnections` selects for a peer:
`CudaIpc` within the node, else `IBs[rank % nranksPerNode]` (source line
281). -/
def selectTransport (rank peer nranksPerNode : Nat) : Transport :=
  if inSameNode rank peer nranksPerNode then Transport.CudaIpc
  else IBs.getD (rank % nranksPerNode) Transport.Unknown

/-- `Executor::Impl::getTransportFlags`: union over the channel infos — an
SM channel adds `CudaIpc`; a PROXY channel adds, per peer, the rank's IB
transport for a remote peer and `CudaIpc` for a local one. -/
def Executor.getTransportFlags (infos : List ChannelInfo) (rank nranksPerNode : Nat) :
    List Transport :=
  infos.foldl
    (fun flags info =>
      match info.channelType with
      | ChannelType.SM => flagsAdd flags Transport.CudaIpc
      | ChannelType.PROXY =>
          info.connectedPeers.foldl
            (fun fs peer =>
              if inSameNode rank peer nranksPerNode then flagsAdd fs Transport.CudaIpc
              else flagsAdd fs (IBs.getD (rank % nranksPerNode) Transport.Unknown))
            flags)
    []

/-- Executor-level observable events: a connection request issued through
the communicator, and one `Communicator::setup` call together with the
hook trace it ran. -/
inductive ExecEvent where
  | connectRequest (peer : Nat) (transport : Transport)
  | commSetupCall (hooks : List HookEvent)
  deriving DecidableEq, Repr

def ExecEvent.isConnectRequest : ExecEvent → Bool
  | .connectRequest _ _ => true
  | _ => false

def ExecEvent.isCommSetupCall : ExecEvent → Bool
  | .commSetupCall _ => true
  | _ => false

/-- The connection-request loop of `Executor::Impl::setupConnections`: one
`connectOnSetup` per connected peer, transport chosen by locality.  Returns
the connection futures, the communicator state and the request trace; an
error stops the loop as the C++ exception would. -/
def Executor.issueConnects (comm : CommState) (rank nranksPerNode : Nat) :
    List Nat → Except MscclppError (List Connection) × CommState × List ExecEvent
  | [] => (.ok [], comm, [])
  | peer :: rest =>
      let transport := selectTransport rank peer nranksPerNode
      match Communicator.connectOnSetup comm peer 0 transport with
      | (.error e, comm1) => (.error e, comm1, [])
      | (.ok conn, comm1) =>
          match Executor.issueConnects comm1 rank nranksPerNode rest with
          | (.error e, comm2, evs) =>
              (.error e, comm2, ExecEvent.connectRequest peer transport :: evs)
          | (.ok conns, comm2, evs) =>
              (.ok (conn :: conns), comm2,
               ExecEvent.connectRequest peer transport :: evs)

/-- `Executor::Impl::setupConnections`: issue every peer's connection
request, then run a single `Communicator::setup`, then record the resolved
connections in the context. -/
def Executor.setupConnections (context : ExecutionContext) (comm : CommState)
    (rank nranksPerNode : Nat) (plan : ExecutionPlan) :
    Except MscclppError ExecutionContext × CommState × List ExecEvent :=
  let connectedPeers := plan.getConnectedPeers rank
  match Executor.issueConnects comm rank nranksPerNode connectedPeers with
  | (.error e, comm1, evs) => (.error e, comm1, evs)
  | (.ok conns, comm1, evs) =>
      let setupResult := Communicator.setup comm1
      (.ok { context with connections := connectedPeers.zip conns },
       setupResult.1, evs ++ [ExecEvent.commSetupCall setupResult.2])

/-- `std::set<int>` accumulation used by `setupRegisteredMemories`: sorted
insertion without duplicates. -/
def insertSortedUnique (x : Nat) : List Nat → List Nat
  | [] => [x]
  | y :: ys =>
      if x < y then x :: y :: ys
      else if x = y then y :: ys
      else y :: insertSortedUnique x ys

/-- The `getConnectedPeers` lambda of `setupRegisteredMemories`: the sorted
deduplicated union of the channel infos' peers. -/
def channelPeersOf (infos : List ChannelInfo) : List Nat :=
  infos.foldl (fun peers info => info.connectedPeers.foldl (fun s p => insertSortedUnique p s) peers) []

/-- The `getBufferInfo` lambda: (base pointer, capacity) of a buffer role. -/
def Executor.getBufferInfo (context : ExecutionContext)
    (sendbuff recvbuff sendBufferSize recvBufferSize : Nat) :
    BufferType → Nat × Nat
  | .INPUT => (sendbuff, sendBufferSize)
  | .OUTPUT => (recvbuff, recvBufferSize)
  | .SCRATCH => (context.scratchBuffer, context.scratchBufferSize)

/-- Association-map write `context.registeredMemories[{bufferType, peer}] = m`. -/
def memMapSet (ms : List ((BufferType × Nat) × RegisteredMemory))
    (k : BufferType × Nat) (m : RegisteredMemory) :
    List ((BufferType × Nat) × RegisteredMemory) :=
  match ms with
  | [] => [(k, m)]
  | kv :: rest => if kv.1 = k then (k, m) :: rest else kv :: memMapSet rest k m

/-- Association-map read `context.registeredMemories[{bufferType, peer}]`
(a missing key default-constructs, as `operator[]` would). -/
def memMapGet (ms : List ((BufferType × Nat) × RegisteredMemory))
    (k : BufferType × Nat) : RegisteredMemory :=
  match ms with
  | [] => { ptr := 0, size := 0, rank := 0, transports := [] }
  | kv :: rest => if kv.1 = k then kv.2 else memMapGet rest k

/-- One iteration of the buffer-role loop of
`Executor::Impl::setupRegisteredMemories`: register this role's buffer with
the required transport union, enqueue one descriptor send per peer expecting
it, enqueue one receive-future per peer a descriptor is expected from, run
one `Communicator::setup`, and record the received descriptors.  `remote`
models the descriptors the bootstrap channel delivers (the peers' sends are
outside this rank's code). -/
def Executor.setupMemoriesForBufferType (context : ExecutionContext) (comm : CommState)
    (sendbuff recvbuff sendBufferSize recvBufferSize rank nranksPerNode : Nat)
    (plan : ExecutionPlan) (remote : BufferType → Nat → RegisteredMemory)
    (bufferType : BufferType) : ExecutionContext × CommState × ExecEvent :=
  let channelInfos := plan.getChannelInfosByDstRank rank bufferType
  let transportFlags := Executor.getTransportFlags channelInfos rank nranksPerNode
  let bufferInfo :=
    Executor.getBufferInfo context sendbuff recvbuff sendBufferSize recvBufferSize bufferType
  let memory := Communicator.registerMemory comm bufferInfo.1 bufferInfo.2 transportFlags
  let sendPeers := channelPeersOf channelInfos
  let comm1 := sendPeers.foldl (fun c p => Communicator.sendMemoryOnSetup c memory p 0) comm
  let recvPeers := channelPeersOf (plan.getChannelInfos rank bufferType)
  let comm2 := recvPeers.foldl (fun c p => Communicator.recvMemoryOnSetup c p 0) comm1
  let setupResult := Communicator.setup comm2
  let newMemories :=
    recvPeers.foldl (fun ms p => memMapSet ms (bufferType, p) (remote bufferType p))
      context.registeredMemories
  ({ context with registeredMemories := newMemories },
   setupResult.1, ExecEvent.commSetupCall setupResult.2)

/-- The buffer-role loop of `Executor::Impl::setupRegisteredMemories`. -/
def Executor.setupRegisteredMemoriesLoop (context : ExecutionContext) (comm : CommState)
    (sendbuff recvbuff sendBufferSize recvBufferSize rank nranksPerNode : Nat)
    (plan : ExecutionPlan) (remote : BufferType → Nat → RegisteredMemory) :
    List BufferType → ExecutionContext × CommState × List ExecEvent
  | [] => (context, comm, [])
  | bufferType :: rest =>
      let step := Executor.setupMemoriesForBufferType context comm sendbuff recvbuff
        sendBufferSize recvBufferSize rank nranksPerNode plan remote bufferType
      let restResult := Executor.setupRegisteredMemoriesLoop step.1 step.2.1 sendbuff recvbuff
        sendBufferSize recvBufferSize rank nranksPerNode plan remote rest
      (restResult.1, restResult.2.1, step.2.2 :: restResult.2.2)

/-- `Executor::Impl::setupRegisteredMemories`: the role loop over
`plan.getConnectedBufferTypes(rank)`. -/
def Executor.setupRegisteredMemories (context : ExecutionContext) (comm : CommState)
    (sendbuff recvbuff sendBufferSize recvBufferSize rank nranksPerNode : Nat)
    (plan : ExecutionPlan) (remote : BufferType → Nat → RegisteredMemory) :
    ExecutionContext × CommState × List ExecEvent :=
  Executor.setupRegisteredMemoriesLoop context comm sendbuff recvbuff sendBufferSize
    recvBufferSize rank nranksPerNode plan remote (plan.getConnectedBufferTypes rank)

/-- The `Setuppable` queue one buffer role pushes before its `setup()`
call: one `MemorySender` per sorted peer expecting this role's descriptor,
then one `MemoryReceiver` per sorted peer a descriptor is expected from.
Used to characterize the trace of `setupMemoriesForBufferType`. -/
def Executor.roleQueue (context : ExecutionContext) (comm : CommState)
    (sendbuff recvbuff sendBufferSize recvBufferSize rank nranksPerNode : Nat)
    (plan : ExecutionPlan) (bufferType : BufferType) : List Setuppable :=
  let channelInfos := plan.getChannelInfosByDstRank rank bufferType
  let transportFlags := Executor.getTransportFlags channelInfos rank nranksPerNode
  let bufferInfo :=
    Executor.getBufferInfo context sendbuff recvbuff sendBufferSize recvBufferSize bufferType
  let memory := Communicator.registerMemory comm bufferInfo.1 bufferInfo.2 transportFlags
  (channelPeersOf channelInfos).map (fun p => Setuppable.memorySender memory p 0) ++
    (channelPeersOf (plan.getChannelInfos rank bufferType)).map
      (fun p => Setuppable.memoryReceiver p 0)

/-- `connections.at(peer)` of the channel setup: `std::out_of_range` when
the peer has no connection. -/
def Executor.connectionsAt (conns : List (Nat × Connection)) (peer : Nat) :
    Except ExecException Connection :=
  match conns.find? (fun pc => pc.1 == peer) with
  | some pc => .ok pc.2
  | none => .error .outOfRange

/-- Accumulator of the semaphore-construction phase of `setupChannels`. -/
structure SemBuildState where
  smSemaphores : List Connection
  proxySemaphores : List Nat
  proxyService : ProxyService

/-- Inner peer loop of the `processChannelInfos` lambda: per peer, an SM
info builds an `SmDevice2DeviceSemaphore` over the peer's connection, a
PROXY info builds a proxy-service semaphore. -/
def Executor.buildSemaphoresPeers (conns : List (Nat × Connection)) (ct : ChannelType)
    (s : SemBuildState) : List Nat → Except ExecException SemBuildState
  | [] => .ok s
  | peer :: rest =>
      match Executor.connectionsAt conns peer with
      | .error e => .error e
      | .ok conn =>
          let s1 :=
            match ct with
            | ChannelType.SM => { s with smSemaphores := s.smSemaphores ++ [conn] }
            | ChannelType.PROXY =>
                let built := s.proxyService.buildAndAddSemaphore conn
                { s with proxySemaphores := s.proxySemaphores ++ [built.1],
                         proxyService := built.2 }
          Executor.buildSemaphoresPeers conns ct s1 rest

/-- The `processChannelInfos` lambda of `setupChannels`. -/
def Executor.processChannelInfos (conns : List (Nat × Connection))
    (s : SemBuildState) : List ChannelInfo → Except ExecException SemBuildState
  | [] => .ok s
  | info :: rest =>
      match Executor.buildSemaphoresPeers conns info.channelType s info.connectedPeers with
      | .error e => .error e
      | .ok s1 => Executor.processChannelInfos conns s1 rest

/-- The `getBuffer` lambda of the channel-build phase. -/
def Executor.getBuffer (context : ExecutionContext) (sendbuff recvbuff : Nat) :
    BufferType → Nat
  | .INPUT => sendbuff
  | .OUTPUT => recvbuff
  | .SCRATCH => context.scratchBuffer

/-- The `getBufferSize` lambda of the channel-build phase. -/
def Executor.getBufferSize (context : ExecutionContext)
    (sendBufferSize recvBufferSize : Nat) : BufferType → Nat
  | .INPUT => sendBufferSize
  | .OUTPUT => recvBufferSize
  | .SCRATCH => context.scratchBufferSize

/-- Accumulator of the channel-construction phase of `setupChannels`:
the running semaphore index, the channel vectors and the proxy service. -/
structure ChanBuildState where
  index : Nat
  smChannels : List SmChannel
  proxyChannels : List SimpleProxyChannel
  proxyService : ProxyService

/-- Inner peer loop of the channel-construction phase: an SM channel binds
the next SM semaphore, the peer's remote memory for the destination role and
the local source pointer; a PROXY channel binds the next proxy semaphore and
the proxy-service ids of the remote and local memories. -/
def Executor.buildChannelsPeers (ct : ChannelType) (info : ChannelInfo)
    (registeredMemories : List ((BufferType × Nat) × RegisteredMemory))
    (smSemaphores : List Connection) (proxySemaphores : List Nat)
    (localMemory : RegisteredMemory) (src : Nat) (s : ChanBuildState) :
    List Nat → ChanBuildState
  | [] => s
  | peer :: rest =>
      let s1 :=
        match ct with
        | ChannelType.SM =>
            { s with
              index := s.index + 1
              smChannels := s.smChannels ++
                [{ semaphoreConnection :=
                     smSemaphores.getD s.index (Connection.cudaIpc 0 0)
                   remoteMemory := memMapGet registeredMemories (info.dstBufferType, peer)
                   src := src }] }
        | ChannelType.PROXY =>
            let remoteAdd := s.proxyService.addMemory
              (memMapGet registeredMemories (info.dstBufferType, peer))
            let localAdd := remoteAdd.2.addMemory localMemory
            { s with
              index := s.index + 1
              proxyChannels := s.proxyChannels ++
                [{ semaphoreId := ProxyService.proxyChannel (proxySemaphores.getD s.index 0)
                   remoteMemoryId := remoteAdd.1
                   localMemoryId := localAdd.1 }]
              proxyService := localAdd.2 }
      Executor.buildChannelsPeers ct info registeredMemories smSemaphores proxySemaphores
        localMemory src s1 rest

/-- Outer info loop of the channel-construction phase: per channel info,
register the source buffer once with the union transport flags, then build
one channel per connected peer. -/
def Executor.buildChannelsInfos (context : ExecutionContext) (comm : CommState)
    (sendbuff recvbuff sendBufferSize recvBufferSize rank nranksPerNode : Nat)
    (ct : ChannelType) (channelInfosAll : List ChannelInfo) (s : ChanBuildState) :
    List ChannelInfo → ChanBuildState
  | [] => s
  | info :: rest =>
      let src := Executor.getBuffer context sendbuff recvbuff info.srcBufferType
      let bufferSize :=
        Executor.getBufferSize context sendBufferSize recvBufferSize info.srcBufferType
      let transport := Executor.getTransportFlags channelInfosAll rank nranksPerNode
      let localMemory := Communicator.registerMemory comm src bufferSize transport
      let s1 := Executor.buildChannelsPeers ct info context.registeredMemories
        context.smSemaphores context.proxySemaphores localMemory src s info.connectedPeers
      Executor.buildChannelsInfos context comm sendbuff recvbuff sendBufferSize
        recvBufferSize rank nranksPerNode ct channelInfosAll s1 rest

/-- `Executor::Impl::setupChannels`: build all semaphores (paired then
unpaired infos, SM then PROXY — requests from both directions must be in the
queue before the shared `setup()` call), run one `Communicator::setup`,
store the semaphores, then construct the SM and proxy channel objects. -/
def Executor.setupChannels (context : ExecutionContext) (comm : CommState)
    (sendbuff recvbuff sendBufferSize recvBufferSize rank nranks nranksPerNode : Nat)
    (plan : ExecutionPlan) :
    Except ExecException ExecutionContext × CommState × List ExecEvent :=
  let s0 : SemBuildState :=
    { smSemaphores := [], proxySemaphores := [], proxyService := context.proxyService }
  match Executor.processChannelInfos context.connections s0
      (plan.getChannelInfosByChannelType rank ChannelType.SM) with
  | .error e => (.error e, comm, [])
  | .ok s1 =>
  match Executor.processChannelInfos context.connections s1
      (plan.getUnpairedChannelInfos rank nranks ChannelType.SM) with
  | .error e => (.error e, comm, [])
  | .ok s2 =>
  match Executor.processChannelInfos context.connections s2
      (plan.getChannelInfosByChannelType rank ChannelType.PROXY) with
  | .error e => (.error e, comm, [])
  | .ok s3 =>
  match Executor.processChannelInfos context.connections s3
      (plan.getUnpairedChannelInfos rank nranks ChannelType.PROXY) with
  | .error e => (.error e, comm, [])
  | .ok s4 =>
      let setupResult := Communicator.setup comm
      let context1 :=
        { context with
          smSemaphores := s4.smSemaphores
          proxySemaphores := s4.proxySemaphores
          proxyService := s4.proxyService }
      let cSM := Executor.buildChannelsInfos context1 comm sendbuff recvbuff
        sendBufferSize recvBufferSize rank nranksPerNode ChannelType.SM
        (plan.getChannelInfosByChannelType rank ChannelType.SM)
        { index := 0, smChannels := context1.smChannels,
          proxyChannels := context1.proxyChannels, proxyService := context1.proxyService }
        (plan.getChannelInfosByChannelType rank ChannelType.SM)
      let cPROXY := Executor.buildChannelsInfos context1 comm sendbuff recvbuff
        sendBufferSize recvBufferSize rank nranksPerNode ChannelType.PROXY
        (plan.getChannelInfosByChannelType rank ChannelType.PROXY)
        { cSM with index := 0 }
        (plan.getChannelInfosByChannelType rank ChannelType.PROXY)
      (.ok { context1 with
              smChannels := cPROXY.smChannels
              proxyChannels := cPROXY.proxyChannels
              proxyService := cPROXY.proxyService },
       setupResult.1, [ExecEvent.commSetupCall setupResult.2])

/-- `Executor::Impl::setupDeviceExecutionPlan`: per threadblock, pack the
operation count, channel counts, the channel handles named by the plan's
per-threadblock channel-index maps, and the operation list. -/
def Executor.setupDeviceExecutionPlan (context : ExecutionContext) (rank : Nat)
    (plan : ExecutionPlan) (params : LoadParams) : ExecutionContext :=
  let deviceExecutionPlans :=
    (List.range (plan.getThreadblockCount rank)).map (fun threadblock =>
      let ops := plan.getOperations params rank threadblock
      let smMap := plan.threadblockSMChannelMap params rank threadblock
      let proxyMap := plan.threadblockProxyChannelMap params rank threadblock
      ({ nOperations := ops.length
         nSmChannels := smMap.length
         nProxyChannels := proxyMap.length
         smChannels := smMap.map (fun kv =>
           context.smChannels.getD kv.1
             { semaphoreConnection := Connection.cudaIpc 0 0
               remoteMemory := { ptr := 0, size := 0, rank := 0, transports := [] }
               src := 0 })
         proxyChannels := proxyMap.map (fun kv =>
           context.proxyChannels.getD kv.1
             { semaphoreId := 0, remoteMemoryId := 0, localMemoryId := 0 })
         operations := ops } : DeviceExecutionPlan))
  { context with deviceExecutionPlans := deviceExecutionPlans }

/-- `Executor::Impl::setupExecutionContext`.  Warm path (key in cache):
reload the plan for the new sizes/offsets, rebuild the per-threadblock
records and the device-resident copy on the cached context, store it back.
Cold path: build scratch buffer, proxy service, connections, registered
memories, channels and the device plan, start the proxy, insert under the
key.  `remote` models the bootstrap-delivered descriptors and `scratchAddr`
the device allocator's result; the returned state carries the communicator
and cache as they are when the function returns or throws. -/
def Executor.setupExecutionContext (st : ExecutorState) (rank sendbuff recvbuff : Nat)
    (inputMessageSize outputMessageSize contsSrcOffset constDstOffset : Nat)
    (sendBufferSize recvBufferSize : Nat) (plan : ExecutionPlan)
    (remote : BufferType → Nat → RegisteredMemory) (scratchAddr : Nat) :
    Except ExecException ExecutionContext × ExecutorState × List ExecEvent :=
  let key := execContextKeyOf sendbuff recvbuff sendBufferSize recvBufferSize plan
  let params : LoadParams :=
    { inputMessageSize := inputMessageSize, outputMessageSize := outputMessageSize,
      constSrcOffset := contsSrcOffset, constDstOffset := constDstOffset }
  match Executor.findContext st.contexts key with
  | some cached =>
      let ctx1 := Executor.setupDeviceExecutionPlan cached rank plan params
      let ctx2 := { ctx1 with deviceExecutionPlansBuffer := ctx1.deviceExecutionPlans }
      (.ok ctx2, { st with contexts := Executor.replaceContext st.contexts key ctx2 }, [])
  | none =>
      let scratchBufferSize := plan.getScratchBufferSize rank sendBufferSize recvBufferSize
      let context0 : ExecutionContext :=
        { proxyService := { semaphores := [], memories := [], started := false }
          connections := []
          registeredMemories := []
          smSemaphores := []
          proxySemaphores := []
          smChannels := []
          proxyChannels := []
          deviceExecutionPlans := []
          scratchBuffer := scratchAddr
          scratchBufferSize := scratchBufferSize
          deviceExecutionPlansBuffer := []
          nthreadsPerBlock := plan.getNThreadsPerBlock }
      match Executor.setupConnections context0 st.comm rank st.nranksPerNode plan with
      | (.error e, comm1, evs1) => (.error (ExecException.api e), { st with comm := comm1 }, evs1)
      | (.ok context1, comm1, evs1) =>
          let memResult := Executor.setupRegisteredMemories context1 comm1 sendbuff recvbuff
            sendBufferSize recvBufferSize rank st.nranksPerNode plan remote
          match Executor.setupChannels memResult.1 memResult.2.1 sendbuff recvbuff
              sendBufferSize recvBufferSize rank st.nranks st.nranksPerNode plan with
          | (.error e, comm3, evs3) =>
              (.error e, { st with comm := comm3 }, evs1 ++ memResult.2.2 ++ evs3)
          | (.ok context3, comm3, evs3) =>
              let context4 := Executor.setupDeviceExecutionPlan context3 rank plan params
              let context5 :=
                { context4 with
                  deviceExecutionPlansBuffer := context4.deviceExecutionPlans
                  proxyService := { context4.proxyService with started := true } }
              (.ok context5,
               { st with comm := comm3, contexts := st.contexts ++ [(key, context5)] },
               evs1 ++ memResult.2.2 ++ evs3)

/-- The two members of the `PacketType` enum, as their underlying values
(the `switch` in `launchKernel` can receive any value of the underlying
type). -/
def PacketTypeLL16 : Nat := 0

/-- The `LL8` member of the `PacketType` enum. -/
def PacketTypeLL8 : Nat := 1

/-- The arguments of one `ExecutionKernel::launchKernel` template
instantiation: the packet type the template is specialized for, the launch
geometry, buffers, the device-resident plan array and the launch flag. -/
structure KernelLaunch where
  packet : Nat
  rank : Nat
  nthreadblocks : Nat
  nthreadsPerBlock : Nat
  sendbuff : Nat
  recvbuff : Nat
  scratch : Nat
  scratchSize : Nat
  dataType : Nat
  plans : List DeviceExecutionPlan
  flag : Nat
  deriving DecidableEq, Repr

/-- `Executor::Impl::launchKernel`: dispatch on the packet type to the
matching kernel template with a pre-incremented 32-bit launch flag
(`++flag` on the function-local `static uint32_t`); any other packet value
raises an executor error without launching or touching the flag.  Returns
the launch (or the error) and the new flag counter. -/
def Executor.launchKernel (context : ExecutionContext)
    (rank sendbuff recvbuff dataType packetType flag : Nat) :
    Except MscclppError KernelLaunch × Nat :=
  let nthreadblocks := context.deviceExecutionPlans.length
  if packetType = PacketTypeLL16 then
    let flag1 := (flag + 1) % 4294967296
    (.ok { packet := PacketTypeLL16, rank := rank, nthreadblocks := nthreadblocks,
           nthreadsPerBlock := context.nthreadsPerBlock, sendbuff := sendbuff,
           recvbuff := recvbuff, scratch := context.scratchBuffer,
           scratchSize := context.scratchBufferSize, dataType := dataType,
           plans := context.deviceExecutionPlansBuffer, flag := flag1 }, flag1)
  else if packetType = PacketTypeLL8 then
    let flag1 := (flag + 1) % 4294967296
    (.ok { packet := PacketTypeLL8, rank := rank, nthreadblocks := nthreadblocks,
           nthreadsPerBlock := context.nthreadsPerBlock, sendbuff := sendbuff,
           recvbuff := recvbuff, scratch := context.scratchBuffer,
           scratchSize := context.scratchBufferSize, dataType := dataType,
           plans := context.deviceExecutionPlansBuffer, flag := flag1 }, flag1)
  else
    (.error ⟨"Invalid packet type", ErrorCode.ExecutorError⟩, flag)

/-! ## Concrete fixtures used by witness theorems -/

/-- A sample registered-memory descriptor. -/
def exMemory : RegisteredMemory :=
  { ptr := 4096, size := 64, rank := 0, transports := [Transport.CudaIpc] }

/-- A sample two-element setup queue: one sender, one receiver. -/
def exQueue : List Setuppable :=
  [.memorySender exMemory 1 0, .memoryReceiver 1 0]

/-- A two-rank single-host communicator with a pending queue. -/
def exComm : CommState :=
  { rank := 0, rankToHash := [7, 7], connections := [], toSetup := exQueue, ibContexts := [] }

/-- A two-rank single-host communicator with an empty queue. -/
def exCommEmpty : CommState :=
  { rank := 0, rankToHash := [7, 7], connections := [], toSetup := [], ibContexts := [] }

/-- A two-rank communicator whose peers are on different hosts. -/
def exCommCross : CommState :=
  { rank := 0, rankToHash := [3, 9], connections := [], toSetup := [], ibContexts := [] }

/-- A sample SM channel info connecting to peer 1. -/
def exChannelInfo : ChannelInfo :=
  { channelType := .SM, connectedPeers := [1], srcBufferType := .INPUT,
    dstBufferType := .OUTPUT }

/-- A sample two-rank execution plan with one SM channel. -/
def exPlan : ExecutionPlan :=
  { name := "allgather"
    getConnectedPeers := fun _ => [1]
    getConnectedBufferTypes := fun _ => [BufferType.INPUT]
    getChannelInfosByDstRank := fun _ _ => [exChannelInfo]
    getChannelInfos := fun _ _ => [exChannelInfo]
    getChannelInfosByChannelType := fun _ ct =>
      match ct with
      | .SM => [exChannelInfo]
      | .PROXY => []
    getUnpairedChannelInfos := fun _ _ _ => []
    getScratchBufferSize := fun _ _ _ => 16
    getNThreadsPerBlock := 256
    getThreadblockCount := fun _ => 1
    getOperations := fun params _ _ => [{ payload := params.inputMessageSize }]
    threadblockSMChannelMap := fun _ _ _ => [(0, 0)]
    threadblockProxyChannelMap := fun _ _ _ => [] }

/-- Sample bootstrap-delivered remote descriptors. -/
def exRemote : BufferType → Nat → RegisteredMemory :=
  fun _ peer => { ptr := 8192, size := 64, rank := peer, transports := [Transport.CudaIpc] }

/-- A sample built execution context for peer 1. -/
def exContext : ExecutionContext :=
  { proxyService := { semaphores := [], memories := [], started := true }
    connections := [(1, Connection.cudaIpc 1 0)]
    registeredMemories := []
    smSemaphores := []
    proxySemaphores := []
    smChannels := []
    proxyChannels := []
    deviceExecutionPlans := []
    scratchBuffer := 500
    scratchBufferSize := 16
    deviceExecutionPlansBuffer := []
    nthreadsPerBlock := 256 }

/-- The cache key of the sample buffers and plan. -/
def exKey : ExecutionContextKey := execContextKeyOf 100 200 512 512 exPlan

/-- An executor whose cache already holds the sample context. -/
def exStWarm : ExecutorState :=
  { nranksPerNode := 2, nranks := 2, comm := exCommEmpty, contexts := [(exKey, exContext)] }

/-- An executor over the cross-host communicator with an empty cache:
its cold path fails at the CudaIpc locality check. -/
def exStCross : ExecutorState :=
  { nranksPerNode := 2, nranks := 2, comm := exCommCross, contexts := [] }

/-! ## Helper lemmas -/

theorem runBeginPhase_eq_map (q : List Setuppable) :
    runBeginPhase q = q.map HookEvent.beginHook := by
  induction q with
  | nil => rfl
  | cons s rest ih => simp [runBeginPhase, ih]

theorem runEndPhase_eq_map (q : List Setuppable) :
    runEndPhase q = q.map HookEvent.endHook := by
  induction q with
  | nil => rfl
  | cons s rest ih => simp [runEndPhase, ih]

theorem CommState.clear_eta (c : CommState) (h : c.toSetup = []) :
    ({ c with toSetup := [] } : CommState) = c := by
  cases c
  simp_all

theorem events_append_ordered (p q : HookEvent → Bool) (l1 l2 : List HookEvent)
    (h1 : ∀ x ∈ l2, p x = false) (h2 : ∀ x ∈ l1, q x = false) :
    eventsOrdered p q (l1 ++ l2) := by
  intro i j hi hj hp hq
  have hilen : i < l1.length := by
    by_contra hc
    push_neg at hc
    have hmem : (l1 ++ l2).get ⟨i, hi⟩ ∈ l2 := by
      rw [List.get_eq_getElem, List.getElem_append_right hc]
      exact List.getElem_mem _
    rw [h1 _ hmem] at hp
    exact Bool.false_ne_true hp
  have hjlen : l1.length ≤ j := by
    by_contra hc
    push_neg at hc
    have hmem : (l1 ++ l2).get ⟨j, hj⟩ ∈ l1 := by
      rw [List.get_eq_getElem, List.getElem_append_left hc]
      exact List.getElem_mem _
    rw [h2 _ hmem] at hq
    exact Bool.false_ne_true hq
  exact lt_of_lt_of_le hilen hjlen

theorem begin_end_ordered (q : List Setuppable) :
    eventsOrdered HookEvent.isBeginHook HookEvent.isEndHook
      (runBeginPhase q ++ runEndPhase q) := by
  apply events_append_ordered
  · intro x hx
    rw [runEndPhase_eq_map] at hx
    obtain ⟨s, _, rfl⟩ := List.mem_map.mp hx
    rfl
  · intro x hx
    rw [runBeginPhase_eq_map] at hx
    obtain ⟨s, _, rfl⟩ := List.mem_map.mp hx
    rfl

theorem send_resolve_ordered (q : List Setuppable) :
    eventsOrdered HookEvent.emitsSend HookEvent.emitsRecvResolve
      (runBeginPhase q ++ runEndPhase q) := by
  apply events_append_ordered
  · intro x hx
    rw [runEndPhase_eq_map] at hx
    obtain ⟨s, _, rfl⟩ := List.mem_map.mp hx
    cases s <;> rfl
  · intro x hx
    rw [runBeginPhase_eq_map] at hx
    obtain ⟨s, _, rfl⟩ := List.mem_map.mp hx
    cases s <;> rfl

theorem transport_decode_encode (ts : List Transport) :
    List.filterMap Transport.fromCode (ts.map Transport.code) = ts := by
  induction ts with
  | nil => rfl
  | cons t rest ih =>
      have ht : Transport.fromCode t.code = some t := by cases t <;> rfl
      simp [ht, ih]

theorem IBs_getD_has (m : Nat) (h : m < 8) :
    AllIBTransports.has (IBs.getD m Transport.Unknown) = true := by
  interval_cases m <;> rfl

theorem issueConnects_ok_trace (rank nranksPerNode : Nat) (peers : List Nat) :
    ∀ (comm : CommState) (conns : List Connection) (comm1 : CommState)
      (evs : List ExecEvent),
      Executor.issueConnects comm rank nranksPerNode peers = (.ok conns, comm1, evs) →
      evs = peers.map
        (fun p => ExecEvent.connectRequest p (selectTransport rank p nranksPerNode)) := by
  induction peers with
  | nil =>
      intro comm conns comm1 evs h
      simp only [Executor.issueConnects, Prod.mk.injEq] at h
      obtain ⟨-, -, h3⟩ := h
      subst h3
      rfl
  | cons p rest ih =>
      intro comm conns comm1 evs h
      simp only [Executor.issueConnects] at h
      rcases hc : Communicator.connectOnSetup comm p 0 (selectTransport rank p nranksPerNode)
        with ⟨r, commA⟩
      rw [hc] at h
      cases r with
      | error e => simp at h
      | ok conn =>
          dsimp only at h
          rcases hrec : Executor.issueConnects commA rank nranksPerNode rest
            with ⟨r2, commB, evs2⟩
          rw [hrec] at h
          cases r2 with
          | error e => simp at h
          | ok conns2 =>
              dsimp only at h
              simp only [Prod.mk.injEq] at h
              obtain ⟨h1, h2, h3⟩ := h
              subst h3
              rw [List.map_cons, ih commA conns2 commB evs2 hrec]

theorem execution_context_key_beq_iff (k1 k2 : ExecutionContextKey) :
    ExecutionContextKey.beq k1 k2 = true ↔
      (k1.sendBuff = k2.sendBuff ∧ k1.recvBuff = k2.recvBuff ∧
       k1.sendBuffSize = k2.sendBuffSize ∧ k1.recvBuffSize = k2.recvBuffSize ∧
       k1.plan = k2.plan) := by
  simp [ExecutionContextKey.beq, and_assoc]

theorem findContext_append_none (l : List (ExecutionContextKey × ExecutionContext))
    (key : ExecutionContextKey) (c : ExecutionContext)
    (h : Executor.findContext l key = none) :
    Executor.findContext (l ++ [(key, c)]) key = some c := by
  induction l with
  | nil => simp [Executor.findContext, ExecutionContextKey.beq]
  | cons kv rest ih =>
      simp only [Executor.findContext, List.cons_append] at h ⊢
      by_cases hb : ExecutionContextKey.beq kv.1 key = true
      · rw [if_pos hb] at h
        simp at h
      · rw [if_neg hb] at h ⊢
        exact ih h

/-! ## Claim theorems -/

/-- Claim C1: a single `Communicator::setup` call invokes `beginSetup` on
every queued `Setuppable`, in enqueue order, before invoking `endSetup` on
any, then invokes `endSetup` on all in enqueue order; the queue is cleared
afterwards, `onSetup` appends to the queue (so each `setup` call processes
exactly what was enqueued since the previous one), and `setup` on an empty
queue is a no-op. -/
theorem communicator_setup_two_phase (st : CommState) :
    (Communicator.setup st).2 =
        st.toSetup.map HookEvent.beginHook ++ st.toSetup.map HookEvent.endHook ∧
    eventsOrdered HookEvent.isBeginHook HookEvent.isEndHook (Communicator.setup st).2 ∧
    (Communicator.setup st).1.toSetup = [] ∧
    (∀ s, (Communicator.onSetup st s).toSetup = st.toSetup ++ [s]) ∧
    (st.toSetup = [] → Communicator.setup st = (st, [])) := by
  refine ⟨?_, ?_, rfl, fun s => rfl, ?_⟩
  · simp [Communicator.setup, runBeginPhase_eq_map, runEndPhase_eq_map]
  · exact begin_end_ordered st.toSetup
  · intro h
    unfold Communicator.setup
    rw [h, CommState.clear_eta st h]
    rfl

/-- Claim C2: the executor selects the intra-node transport (`CudaIpc`) for
a peer exactly when the peer is on the same node as this rank (the source's
`inSameNode` locality test), and otherwise selects the RDMA transport with
index `rank % nranksPerNode`; and every successful `setupConnections` run
issues all its connection requests before its single
`Communicator::setup` call. -/
theorem executor_connection_transport_selection (rank peer nranksPerNode : Nat)
    (h1 : 0 < nranksPerNode) (h2 : nranksPerNode ≤ 8) :
    (selectTransport rank peer nranksPerNode = Transport.CudaIpc ↔
       inSameNode rank peer nranksPerNode = true) ∧
    (inSameNode rank peer nranksPerNode = false →
       selectTransport rank peer nranksPerNode =
         IBs.getD (rank % nranksPerNode) Transport.Unknown ∧
       AllIBTransports.has (selectTransport rank peer nranksPerNode) = true) ∧
    (∀ (context : ExecutionContext) (comm : CommState) (plan : ExecutionPlan)
       (ctx1 : ExecutionContext) (comm1 : CommState) (evs : List ExecEvent),
       Executor.setupConnections context comm rank nranksPerNode plan =
         (.ok ctx1, comm1, evs) →
       ∃ hooks, evs = (plan.getConnectedPeers rank).map
           (fun p => ExecEvent.connectRequest p (selectTransport rank p nranksPerNode)) ++
         [ExecEvent.commSetupCall hooks]) := by
  have hmod : rank % nranksPerNode < 8 := lt_of_lt_of_le (Nat.mod_lt rank h1) h2
  refine ⟨⟨?_, ?_⟩, ?_, ?_⟩
  · intro hsel
    by_contra hn
    rw [Bool.not_eq_true] at hn
    simp only [selectTransport, hn, Bool.false_eq_true, if_false] at hsel
    have hhas := IBs_getD_has _ hmod
    rw [hsel] at hhas
    simp [AllIBTransports.has] at hhas
  · intro hs
    simp [selectTransport, hs]
  · intro hn
    constructor
    · simp [selectTransport, hn]
    · simp only [selectTransport, hn, Bool.false_eq_true, if_false]
      exact IBs_getD_has _ hmod
  · intro context comm plan ctx1 comm1 evs h
    simp only [Executor.setupConnections] at h
    rcases hic : Executor.issueConnects comm rank nranksPerNode (plan.getConnectedPeers rank)
      with ⟨r, commA, evsA⟩
    rw [hic] at h
    cases r with
    | error e => simp at h
    | ok conns =>
        simp only [Prod.mk.injEq] at h
        obtain ⟨-, -, h3⟩ := h
        subst h3
        exact ⟨(Communicator.setup commA).2,
          by rw [issueConnects_ok_trace rank nranksPerNode _ comm conns commA evsA hic]⟩

/-- Witness for C2 at ranks 0 and 1 with two ranks per node. -/
theorem executor_connection_transport_selection_witness :
    (selectTransport 0 1 2 = Transport.CudaIpc ↔ inSameNode 0 1 2 = true) ∧
    (inSameNode 0 1 2 = false →
       selectTransport 0 1 2 = IBs.getD (0 % 2) Transport.Unknown ∧
       AllIBTransports.has (selectTransport 0 1 2) = true) ∧
    (∀ (context : ExecutionContext) (comm : CommState) (plan : ExecutionPlan)
       (ctx1 : ExecutionContext) (comm1 : CommState) (evs : List ExecEvent),
       Executor.setupConnections context comm 0 2 plan = (.ok ctx1, comm1, evs) →
       ∃ hooks, evs = (plan.getConnectedPeers 0).map
           (fun p => ExecEvent.connectRequest p (selectTransport 0 p 2)) ++
         [ExecEvent.commSetupCall hooks]) :=
  executor_connection_transport_selection 0 1 2 (by decide) (by decide)

/-- Claim C3: `connectOnSetup` with the intra-node transport succeeds when
the host-identity hashes of the two ranks are equal, fails with an
invalid-usage error when they differ, and fails with an internal error for
any transport that is neither `CudaIpc` nor an IB transport. -/
theorem connect_on_setup_transport_rules (st : CommState) (remoteRank tag : Nat)
    (transport : Transport) :
    (st.rankToHash.getD remoteRank 0 = st.rankToHash.getD st.rank 0 →
       ∃ conn, (Communicator.connectOnSetup st remoteRank tag Transport.CudaIpc).1 =
         .ok conn) ∧
    (st.rankToHash.getD remoteRank 0 ≠ st.rankToHash.getD st.rank 0 →
       (Communicator.connectOnSetup st remoteRank tag Transport.CudaIpc).1 =
         .error ⟨cudaIpcCrossNodeMessage, ErrorCode.InvalidUsage⟩) ∧
    (transport ≠ Transport.CudaIpc → AllIBTransports.has transport = false →
       (Communicator.connectOnSetup st remoteRank tag transport).1 =
         .error ⟨"Unsupported transport", ErrorCode.InternalError⟩) := by
  refine ⟨?_, ?_, ?_⟩
  · intro heq
    refine ⟨Connection.cudaIpc remoteRank tag, ?_⟩
    simp only [Communicator.connectOnSetup, if_neg (not_not_intro heq)]
    simp
  · intro hne
    simp only [Communicator.connectOnSetup, if_pos hne]
    simp
  · intro hnc hnib
    have hnib2 : ¬ (AllIBTransports.has transport = true) := by simp [hnib]
    simp only [Communicator.connectOnSetup, if_neg hnc, if_neg hnib2]

/-- Claim C9: serializing a `RegisteredMemory` (as `MemorySender::beginSetup`
does before sending) and deserializing the byte sequence (as
`MemoryReceiver::endSetup` does) reproduces a descriptor with the same
owning rank, size, and transport flags. -/
theorem registered_memory_roundtrip (m : RegisteredMemory) (remoteRank tag : Nat) :
    Setuppable.beginHookEvents (.memorySender m remoteRank tag) =
      [BootEvent.send m.serialize remoteRank tag] ∧
    RegisteredMemory.deserialize m.serialize = some m ∧
    ∃ m2, RegisteredMemory.deserialize m.serialize = some m2 ∧
      m2.rank = m.rank ∧ m2.size = m.size ∧ m2.transports = m.transports := by
  have hrt : RegisteredMemory.deserialize m.serialize = some m := by
    simp only [RegisteredMemory.serialize, RegisteredMemory.deserialize]
    rw [transport_decode_encode]
  exact ⟨rfl, hrt, m, hrt, rfl, rfl, rfl⟩

/-- Claim C10: when `connectOnSetup` raises an error (cross-host CudaIpc
request or unsupported transport), the communicator state is unchanged: no
connection appended, nothing enqueued, no IB context created. -/
theorem connect_on_setup_error_frame (st : CommState) (remoteRank tag : Nat)
    (transport : Transport) (e : MscclppError)
    (h : (Communicator.connectOnSetup st remoteRank tag transport).1 = .error e) :
    (Communicator.connectOnSetup st remoteRank tag transport).2 = st ∧
    (Communicator.connectOnSetup st remoteRank tag transport).2.connections =
      st.connections ∧
    (Communicator.connectOnSetup st remoteRank tag transport).2.toSetup = st.toSetup ∧
    (Communicator.connectOnSetup st remoteRank tag transport).2.ibContexts =
      st.ibContexts := by
  have hst : (Communicator.connectOnSetup st remoteRank tag transport).2 = st := by
    by_cases hc : transport = Transport.CudaIpc
    · subst hc
      by_cases hh : st.rankToHash.getD remoteRank 0 ≠ st.rankToHash.getD st.rank 0
      · simp only [Communicator.connectOnSetup, if_pos hh]
        simp
      · simp only [Communicator.connectOnSetup, if_neg hh] at h
        simp at h
    · by_cases hib : AllIBTransports.has transport = true
      · simp only [Communicator.connectOnSetup, if_neg hc, if_pos hib] at h
        simp at h
      · simp only [Communicator.connectOnSetup, if_neg hc, if_neg hib]
  exact ⟨hst, by rw [hst], by rw [hst], by rw [hst]⟩

/-- Witness for C10 at a concrete input: an unsupported transport leaves the
sample communicator untouched. -/
theorem connect_on_setup_error_frame_witness :
    (Communicator.connectOnSetup exCommEmpty 1 0 Transport.Unknown).2 = exCommEmpty ∧
    (Communicator.connectOnSetup exCommEmpty 1 0 Transport.Unknown).2.connections =
      exCommEmpty.connections ∧
    (Communicator.connectOnSetup exCommEmpty 1 0 Transport.Unknown).2.toSetup =
      exCommEmpty.toSetup ∧
    (Communicator.connectOnSetup exCommEmpty 1 0 Transport.Unknown).2.ibContexts =
      exCommEmpty.ibContexts :=
  connect_on_setup_error_frame exCommEmpty 1 0 Transport.Unknown
    ⟨"Unsupported transport", ErrorCode.InternalError⟩ (by rfl)

/-- Claim C4: when the key is already cached, `setupExecutionContext` leaves
the cached context's proxy service, connections, registered memories,
semaphores and channels unchanged and rebuilds only the plan-dependent
state — the per-threadblock records for the new message sizes/offsets and
the device-resident copy of them; the communicator is not touched (empty
event trace, communicator field of the state unchanged). -/
theorem executor_warm_path_frame (st : ExecutorState)
    (rank sendbuff recvbuff im om cso cdo sendBufferSize recvBufferSize : Nat)
    (plan : ExecutionPlan) (remote : BufferType → Nat → RegisteredMemory)
    (scratchAddr : Nat) (cached : ExecutionContext)
    (h : Executor.findContext st.contexts
        (execContextKeyOf sendbuff recvbuff sendBufferSize recvBufferSize plan) =
      some cached) :
    ∃ ctx2,
      Executor.setupExecutionContext st rank sendbuff recvbuff im om cso cdo
          sendBufferSize recvBufferSize plan remote scratchAddr =
        (.ok ctx2,
         { st with contexts := Executor.replaceContext st.contexts (execContextKeyOf sendbuff recvbuff sendBufferSize recvBufferSize plan) ctx2 },
         []) ∧
      ctx2.proxyService = cached.proxyService ∧
      ctx2.connections = cached.connections ∧
      ctx2.registeredMemories = cached.registeredMemories ∧
      ctx2.smSemaphores = cached.smSemaphores ∧
      ctx2.proxySemaphores = cached.proxySemaphores ∧
      ctx2.smChannels = cached.smChannels ∧
      ctx2.proxyChannels = cached.proxyChannels ∧
      ctx2.scratchBuffer = cached.scratchBuffer ∧
      ctx2.scratchBufferSize = cached.scratchBufferSize ∧
      ctx2.nthreadsPerBlock = cached.nthreadsPerBlock ∧
      ctx2.deviceExecutionPlans =
        (Executor.setupDeviceExecutionPlan cached rank plan
          ⟨im, om, cso, cdo⟩).deviceExecutionPlans ∧
      ctx2.deviceExecutionPlansBuffer = ctx2.deviceExecutionPlans := by
  simp only [Executor.setupExecutionContext]
  rw [h]
  exact ⟨_, rfl, rfl, rfl, rfl, rfl, rfl, rfl, rfl, rfl, rfl, rfl, rfl, rfl⟩

/-- Witness for C4: rebuilding the sample cached context for new message
sizes keeps every topology field and redoes only the device plan. -/
theorem executor_warm_path_frame_witness :
    ∃ ctx2,
      Executor.setupExecutionContext exStWarm 0 100 200 8 8 0 0 512 512 exPlan
          exRemote 500 =
        (.ok ctx2,
         { exStWarm with contexts := Executor.replaceContext exStWarm.contexts (execContextKeyOf 100 200 512 512 exPlan) ctx2 },
         []) ∧
      ctx2.proxyService = exContext.proxyService ∧
      ctx2.connections = exContext.connections ∧
      ctx2.registeredMemories = exContext.registeredMemories ∧
      ctx2.smSemaphores = exContext.smSemaphores ∧
      ctx2.proxySemaphores = exContext.proxySemaphores ∧
      ctx2.smChannels = exContext.smChannels ∧
      ctx2.proxyChannels = exContext.proxyChannels ∧
      ctx2.scratchBuffer = exContext.scratchBuffer ∧
      ctx2.scratchBufferSize = exContext.scratchBufferSize ∧
      ctx2.nthreadsPerBlock = exContext.nthreadsPerBlock ∧
      ctx2.deviceExecutionPlans =
        (Executor.setupDeviceExecutionPlan exContext 0 exPlan
          ⟨8, 8, 0, 0⟩).deviceExecutionPlans ∧
      ctx2.deviceExecutionPlansBuffer = ctx2.deviceExecutionPlans :=
  executor_warm_path_frame exStWarm 0 100 200 8 8 0 0 512 512 exPlan exRemote 500
    exContext (by rfl)

/-- Claim C5: two invocations of `setupExecutionContext` address the same
cache slot exactly when all five `ExecutionContextKey` fields (send base,
recv base, send capacity, recv capacity, plan name) compare equal: key
equality is field-wise; a cached key is reused (warm path, no communicator
traffic) for any per-call message sizes and offsets; and a cold build
inserts its context under exactly that five-field key, so a later call with
equal fields finds it no matter its message sizes. -/
theorem execution_context_key_identity :
    (∀ k1 k2 : ExecutionContextKey, ExecutionContextKey.beq k1 k2 = true ↔
       (k1.sendBuff = k2.sendBuff ∧ k1.recvBuff = k2.recvBuff ∧
        k1.sendBuffSize = k2.sendBuffSize ∧ k1.recvBuffSize = k2.recvBuffSize ∧
        k1.plan = k2.plan)) ∧
    (∀ (st : ExecutorState) (rank sendbuff recvbuff im om cso cdo ss rs scratchAddr : Nat)
       (plan : ExecutionPlan) (remote : BufferType → Nat → RegisteredMemory),
       (Executor.findContext st.contexts
           (execContextKeyOf sendbuff recvbuff ss rs plan)).isSome = true →
       ∃ ctx2 st2, Executor.setupExecutionContext st rank sendbuff recvbuff im om cso cdo
           ss rs plan remote scratchAddr = (.ok ctx2, st2, [])) ∧
    (∀ (st : ExecutorState) (rank sendbuff recvbuff im om cso cdo ss rs scratchAddr : Nat)
       (plan : ExecutionPlan) (remote : BufferType → Nat → RegisteredMemory)
       (ctx2 : ExecutionContext) (st2 : ExecutorState) (evs : List ExecEvent),
       Executor.findContext st.contexts (execContextKeyOf sendbuff recvbuff ss rs plan) =
         none →
       Executor.setupExecutionContext st rank sendbuff recvbuff im om cso cdo ss rs plan
           remote scratchAddr = (.ok ctx2, st2, evs) →
       Executor.findContext st2.contexts (execContextKeyOf sendbuff recvbuff ss rs plan) =
         some ctx2) := by
  refine ⟨execution_context_key_beq_iff, ?_, ?_⟩
  · intro st rank sendbuff recvbuff im om cso cdo ss rs scratchAddr plan remote hsome
    rcases hfc : Executor.findContext st.contexts
        (execContextKeyOf sendbuff recvbuff ss rs plan) with _ | cached
    · rw [hfc] at hsome
      simp at hsome
    · simp only [Executor.setupExecutionContext]
      rw [hfc]
      exact ⟨_, _, rfl⟩
  · intro st rank sendbuff recvbuff im om cso cdo ss rs scratchAddr plan remote
      ctx2 st2 evs hnone hok
    simp only [Executor.setupExecutionContext] at hok
    rw [hnone] at hok
    dsimp only at hok
    split at hok
    · simp at hok
    · split at hok
      · simp at hok
      · simp only [Prod.mk.injEq, Except.ok.injEq] at hok
        obtain ⟨h1, h2, h3⟩ := hok
        subst h1
        rw [← h2]
        exact findContext_append_none st.contexts _ _ hnone

/-- Claim C7: if any step of the cold-path construction raises an error,
`setupExecutionContext` propagates the error and leaves the context cache
exactly as it was — in particular, no entry appears under the failed key,
because a context is inserted only after every construction step
succeeded. -/
theorem cold_path_error_keeps_cache (st : ExecutorState)
    (rank sendbuff recvbuff im om cso cdo ss rs : Nat)
    (plan : ExecutionPlan) (remote : BufferType → Nat → RegisteredMemory)
    (scratchAddr : Nat) (e : ExecException) (st2 : ExecutorState) (evs : List ExecEvent)
    (h : Executor.setupExecutionContext st rank sendbuff recvbuff im om cso cdo ss rs
        plan remote scratchAddr = (.error e, st2, evs)) :
    st2.contexts = st.contexts ∧
    (∀ key, Executor.findContext st.contexts key = none →
       Executor.findContext st2.contexts key = none) := by
  have hc : st2.contexts = st.contexts := by
    simp only [Executor.setupExecutionContext] at h
    rcases hfc : Executor.findContext st.contexts
        (execContextKeyOf sendbuff recvbuff ss rs plan) with _ | cached
    · rw [hfc] at h
      dsimp only at h
      split at h
      · simp only [Prod.mk.injEq] at h
        obtain ⟨-, h2, -⟩ := h
        rw [← h2]
      · split at h
        · simp only [Prod.mk.injEq] at h
          obtain ⟨-, h2, -⟩ := h
          rw [← h2]
        · simp at h
    · rw [hfc] at h
      dsimp only at h
      simp at h
  exact ⟨hc, fun key hk => by rw [hc]; exact hk⟩

/-- Witness for C7: the cross-host sample executor fails its connection
setup (CudaIpc across different host hashes) and its cache stays empty. -/
theorem cold_path_error_keeps_cache_witness :
    exStCross.contexts = exStCross.contexts ∧
    (∀ key, Executor.findContext exStCross.contexts key = none →
       Executor.findContext exStCross.contexts key = none) :=
  cold_path_error_keeps_cache exStCross 0 100 200 8 8 0 0 512 512 exPlan exRemote 500
    (ExecException.api ⟨cudaIpcCrossNodeMessage, ErrorCode.InvalidUsage⟩)
    exStCross [] (by rfl)

/-- Claim C8: `launchKernel` dispatches to the kernel template specialized
for the requested packet type for each of the two supported packet types
(LL16, LL8), passing a 32-bit launch flag incremented on every launch, and
raises an executor error for any other packet type without launching or
advancing the flag. -/
theorem launch_kernel_dispatch (context : ExecutionContext)
    (rank sendbuff recvbuff dataType flag : Nat) :
    (∀ packetType, packetType = PacketTypeLL16 ∨ packetType = PacketTypeLL8 →
       Executor.launchKernel context rank sendbuff recvbuff dataType packetType flag =
         (.ok { packet := packetType, rank := rank,
                nthreadblocks := context.deviceExecutionPlans.length,
                nthreadsPerBlock := context.nthreadsPerBlock, sendbuff := sendbuff,
                recvbuff := recvbuff, scratch := context.scratchBuffer,
                scratchSize := context.scratchBufferSize, dataType := dataType,
                plans := context.deviceExecutionPlansBuffer,
                flag := (flag + 1) % 4294967296 },
          (flag + 1) % 4294967296)) ∧
    (∀ packetType, packetType ≠ PacketTypeLL16 → packetType ≠ PacketTypeLL8 →
       Executor.launchKernel context rank sendbuff recvbuff dataType packetType flag =
         (.error ⟨"Invalid packet type", ErrorCode.ExecutorError⟩, flag)) := by
  constructor
  · rintro packetType (rfl | rfl)
    · simp [Executor.launchKernel, PacketTypeLL16, PacketTypeLL8]
    · simp [Executor.launchKernel, PacketTypeLL16, PacketTypeLL8]
  · intro packetType h16 h8
    simp only [Executor.launchKernel, if_neg h16, if_neg h8]

theorem sendFold_state (m : RegisteredMemory) (ps : List Nat) :
    ∀ comm : CommState,
      ps.foldl (fun c p => Communicator.sendMemoryOnSetup c m p 0) comm =
        { comm with
          toSetup := comm.toSetup ++ ps.map (fun p => Setuppable.memorySender m p 0) } := by
  induction ps with
  | nil => intro comm; simp
  | cons p rest ih =>
      intro comm
      simp only [List.foldl_cons, List.map_cons]
      rw [ih]
      simp [Communicator.sendMemoryOnSetup, Communicator.onSetup]

theorem recvFold_state (ps : List Nat) :
    ∀ comm : CommState,
      ps.foldl (fun c p => Communicator.recvMemoryOnSetup c p 0) comm =
        { comm with
          toSetup := comm.toSetup ++ ps.map (fun p => Setuppable.memoryReceiver p 0) } := by
  induction ps with
  | nil => intro comm; simp
  | cons p rest ih =>
      intro comm
      simp only [List.foldl_cons, List.map_cons]
      rw [ih]
      simp [Communicator.recvMemoryOnSetup, Communicator.onSetup]

theorem setupMemoriesForBufferType_empty_queue (context : ExecutionContext)
    (comm : CommState)
    (sendbuff recvbuff sendBufferSize recvBufferSize rank nranksPerNode : Nat)
    (plan : ExecutionPlan) (remote : BufferType → Nat → RegisteredMemory)
    (bufferType : BufferType) (h : comm.toSetup = []) :
    Executor.setupMemoriesForBufferType context comm sendbuff recvbuff sendBufferSize
        recvBufferSize rank nranksPerNode plan remote bufferType =
      ({ context with registeredMemories := (channelPeersOf (plan.getChannelInfos rank bufferType)).foldl (fun ms p => memMapSet ms (bufferType, p) (remote bufferType p)) context.registeredMemories },
       comm,
       ExecEvent.commSetupCall
         (runBeginPhase (Executor.roleQueue context comm sendbuff recvbuff sendBufferSize
             recvBufferSize rank nranksPerNode plan bufferType) ++
          runEndPhase (Executor.roleQueue context comm sendbuff recvbuff sendBufferSize
             recvBufferSize rank nranksPerNode plan bufferType))) := by
  simp only [Executor.setupMemoriesForBufferType]
  rw [sendFold_state, recvFold_state]
  simp only [Communicator.setup]
  simp [Executor.roleQueue, h]
  exact CommState.clear_eta comm h

theorem roleQueue_scratch_congr (context context0 : ExecutionContext) (comm : CommState)
    (sendbuff recvbuff sendBufferSize recvBufferSize rank nranksPerNode : Nat)
    (plan : ExecutionPlan) (bufferType : BufferType)
    (h1 : context.scratchBuffer = context0.scratchBuffer)
    (h2 : context.scratchBufferSize = context0.scratchBufferSize) :
    Executor.roleQueue context comm sendbuff recvbuff sendBufferSize recvBufferSize rank
        nranksPerNode plan bufferType =
      Executor.roleQueue context0 comm sendbuff recvbuff sendBufferSize recvBufferSize rank
        nranksPerNode plan bufferType := by
  cases bufferType <;> simp [Executor.roleQueue, Executor.getBufferInfo, h1, h2]

theorem setupRegisteredMemoriesLoop_trace
    (sendbuff recvbuff sendBufferSize recvBufferSize rank nranksPerNode : Nat)
    (plan : ExecutionPlan) (remote : BufferType → Nat → RegisteredMemory)
    (bts : List BufferType) :
    ∀ (context context0 : ExecutionContext) (comm : CommState),
      comm.toSetup = [] →
      context.scratchBuffer = context0.scratchBuffer →
      context.scratchBufferSize = context0.scratchBufferSize →
      (Executor.setupRegisteredMemoriesLoop context comm sendbuff recvbuff sendBufferSize
          recvBufferSize rank nranksPerNode plan remote bts).2.2 =
        bts.map (fun bt => ExecEvent.commSetupCall
          (runBeginPhase (Executor.roleQueue context0 comm sendbuff recvbuff sendBufferSize
              recvBufferSize rank nranksPerNode plan bt) ++
           runEndPhase (Executor.roleQueue context0 comm sendbuff recvbuff sendBufferSize
              recvBufferSize rank nranksPerNode plan bt))) := by
  induction bts with
  | nil => intros; rfl
  | cons bt rest ih =>
      intro context context0 comm h hs1 hs2
      simp only [Executor.setupRegisteredMemoriesLoop]
      rw [setupMemoriesForBufferType_empty_queue context comm sendbuff recvbuff
        sendBufferSize recvBufferSize rank nranksPerNode plan remote bt h]
      rw [List.map_cons]
      congr 1
      · rw [roleQueue_scratch_congr context context0 comm sendbuff recvbuff sendBufferSize
          recvBufferSize rank nranksPerNode plan bt hs1 hs2]
      · exact ih _ context0 comm h hs1 hs2

/-- Claim C6: during registered-memory exchange, each buffer role the plan
touches runs exactly one `Communicator::setup` call whose flushed queue is
that role's descriptor senders followed by its receive-futures, and inside
that call every descriptor send (a `beginSetup` action) happens strictly
before any receive-future is resolved (an `endSetup` action). -/
theorem memory_exchange_role_phasing (context : ExecutionContext) (comm : CommState)
    (sendbuff recvbuff sendBufferSize recvBufferSize rank nranksPerNode : Nat)
    (plan : ExecutionPlan) (remote : BufferType → Nat → RegisteredMemory)
    (h : comm.toSetup = []) :
    (Executor.setupRegisteredMemories context comm sendbuff recvbuff sendBufferSize
        recvBufferSize rank nranksPerNode plan remote).2.2 =
      (plan.getConnectedBufferTypes rank).map (fun bufferType =>
        ExecEvent.commSetupCall
          (runBeginPhase (Executor.roleQueue context comm sendbuff recvbuff sendBufferSize
              recvBufferSize rank nranksPerNode plan bufferType) ++
           runEndPhase (Executor.roleQueue context comm sendbuff recvbuff sendBufferSize
              recvBufferSize rank nranksPerNode plan bufferType))) ∧
    (∀ bufferType,
       eventsOrdered HookEvent.emitsSend HookEvent.emitsRecvResolve
         (runBeginPhase (Executor.roleQueue context comm sendbuff recvbuff sendBufferSize
             recvBufferSize rank nranksPerNode plan bufferType) ++
          runEndPhase (Executor.roleQueue context comm sendbuff recvbuff sendBufferSize
              recvBufferSize rank nranksPerNode plan bufferType))) := by
  constructor
  · exact setupRegisteredMemoriesLoop_trace sendbuff recvbuff sendBufferSize recvBufferSize
      rank nranksPerNode plan remote (plan.getConnectedBufferTypes rank)
      context context comm h rfl rfl
  · intro bufferType
    exact send_resolve_ordered _

/-- Witness for C6 on the sample single-role plan and empty-queue
communicator. -/
theorem memory_exchange_role_phasing_witness :
    (Executor.setupRegisteredMemories exContext exCommEmpty 100 200 512 512 0 2 exPlan
        exRemote).2.2 =
      (exPlan.getConnectedBufferTypes 0).map (fun bufferType =>
        ExecEvent.commSetupCall
          (runBeginPhase (Executor.roleQueue exContext exCommEmpty 100 200 512 512 0 2
              exPlan bufferType) ++
           runEndPhase (Executor.roleQueue exContext exCommEmpty 100 200 512 512 0 2
              exPlan bufferType))) ∧
    (∀ bufferType,
       eventsOrdered HookEvent.emitsSend HookEvent.emitsRecvResolve
         (runBeginPhase (Executor.roleQueue exContext exCommEmpty 100 200 512 512 0 2
             exPlan bufferType) ++
          runEndPhase (Executor.roleQueue exContext exCommEmpty 100 200 512 512 0 2
              exPlan bufferType))) :=
  memory_exchange_role_phasing exContext exCommEmpty 100 200 512 512 0 2 exPlan exRemote
    (by rfl)

end Mscclpp
